import Mathlib

/-!
Verification of the two-part RISC-V-style toolchain (assembler + simulator).

Bit strings of '0'/'1' characters from the Python sources are modelled as
`List Bool` (most significant bit first, `true` = '1').  Python `dict`
register files are modelled as functions `Nat → Nat` (keys `x0 .. x31`;
every stored value is already masked to 32 bits by `write_register`, hence
non-negative).  Python exceptions raised inside the per-format executors are
modelled with `Except String`; no executor mutates state before raising, so
the catch-all in `execute_instruction` faithfully returns the unchanged
register file and memory together with the error sentinel `-2`.
-/

namespace CO

/-- Converts a Python binary-digit string literal into its bit-list model. -/
def bits (s : String) : List Bool := s.toList.map (fun c => c == '1')

/-- Python `int(s, 2)`: value of a most-significant-bit-first bit string. -/
def bitsToNat (s : List Bool) : Nat :=
  s.foldl (fun acc b => 2 * acc + (if b then 1 else 0)) 0

/-- Fuel-driven worker for `natBitsLE`; structural recursion on the fuel
keeps the function kernel-reducible.  `natBitsLEAux fuel n` is the digit
list of `n` whenever `n ≤ fuel`. -/
def natBitsLEAux : Nat → Nat → List Bool
  | 0, _ => []
  | fuel + 1, n => if n = 0 then [] else ((n % 2) == 1) :: natBitsLEAux fuel (n / 2)

/-- Binary digits of a natural number, least significant first (empty for 0). -/
def natBitsLE (n : Nat) : List Bool := natBitsLEAux n n

theorem natBitsLEAux_congr (fuel1 : Nat) : ∀ (fuel2 n : Nat), n ≤ fuel1 →
    n ≤ fuel2 → natBitsLEAux fuel1 n = natBitsLEAux fuel2 n := by
  induction fuel1 with
  | zero =>
    intro fuel2 n h1 _
    interval_cases n
    cases fuel2 <;> simp [natBitsLEAux]
  | succ f ih =>
    intro fuel2 n h1 h2
    match n with
    | 0 => cases fuel2 <;> simp [natBitsLEAux]
    | m + 1 =>
      match fuel2 with
      | f2 + 1 =>
        simp only [natBitsLEAux, if_neg (Nat.succ_ne_zero m)]
        rw [ih f2 ((m + 1) / 2) (by omega) (by omega)]

theorem natBitsLE_eq (n : Nat) : natBitsLE n
    = if n = 0 then [] else ((n % 2) == 1) :: natBitsLE (n / 2) := by
  unfold natBitsLE
  match n with
  | 0 => simp [natBitsLEAux]
  | m + 1 =>
    simp only [natBitsLEAux, if_neg (Nat.succ_ne_zero m)]
    rw [natBitsLEAux_congr m ((m + 1) / 2) ((m + 1) / 2) (by omega) (by omega)]

/-- Python `bin(n)[2:]`: most-significant-first digits, and `"0"` for zero. -/
def natBits (n : Nat) : List Bool :=
  if n = 0 then [false] else (natBitsLE n).reverse

/-- Python `str.zfill`: left-pad with `'0'` up to `size` (never truncates). -/
def zfill (size : Nat) (s : List Bool) : List Bool :=
  List.replicate (size - s.length) false ++ s

/-- simulator.py lines 66-73, `binary_to_decimal(binary_str, bits)`:
two's-complement value of a bit string, truncating to the last `bits`
characters first.  (Python indexes `binary_str[0]`, which would raise on an
empty string; no call site passes one, the model returns 0 there.) -/
def binary_to_decimal (binary_str : List Bool) (bits : Nat) : Int :=
  let binary_str :=
    if binary_str.length > bits then binary_str.drop (binary_str.length - bits)
    else binary_str
  if binary_str.getD 0 false then
    let inverted := binary_str.map (fun bit => !bit);
    -1 * ((bitsToNat inverted : Int) + 1)
  else (bitsToNat binary_str : Int)

/-- simulator.py lines 200-202, `write_register`: x0 is hardwired to zero,
all other writes are masked to 32 bits (`value & 0xFFFFFFFF`, which for a
Python `int` of either sign is the value modulo 2^32). -/
def write_register (registers : Nat → Nat) (reg_num : Nat) (value : Int) :
    Nat → Nat :=
  if reg_num ≠ 0 then
    fun r => if r = reg_num then (value % 4294967296).toNat else registers r
  else registers

/-- Opcode of `add` in the simulator's `R_TYPE` table (simulator.py 8-15). -/
def R_TYPE_add_opcode : List Bool := bits "0110011"

/-- Funct3 of `add`/`sub` in the `R_TYPE` table. -/
def R_TYPE_add_funct3 : List Bool := bits "000"

/-- Funct7 of `add` in the `R_TYPE` table. -/
def R_TYPE_add_funct7 : List Bool := bits "0000000"

/-- Funct7 of `sub` in the `R_TYPE` table. -/
def R_TYPE_sub_funct7 : List Bool := bits "0100000"

/-- Funct3 of `slt` in the `R_TYPE` table. -/
def R_TYPE_slt_funct3 : List Bool := bits "010"

/-- Funct3 of `srl` in the `R_TYPE` table. -/
def R_TYPE_srl_funct3 : List Bool := bits "101"

/-- Funct3 of `or` in the `R_TYPE` table. -/
def R_TYPE_or_funct3 : List Bool := bits "110"

/-- Funct3 of `and` in the `R_TYPE` table. -/
def R_TYPE_and_funct3 : List Bool := bits "111"

/-- Opcode of `addi` in the simulator's `I_TYPE` table (simulator.py 2-6). -/
def I_TYPE_addi_opcode : List Bool := bits "0010011"

/-- Funct3 of `addi` in the `I_TYPE` table. -/
def I_TYPE_addi_funct3 : List Bool := bits "000"

/-- Opcode of `lw` in the `I_TYPE` table. -/
def I_TYPE_lw_opcode : List Bool := bits "0000011"

/-- Funct3 of `lw` in the `I_TYPE` table. -/
def I_TYPE_lw_funct3 : List Bool := bits "010"

/-- Opcode of `jalr` in the `I_TYPE` table. -/
def I_TYPE_jalr_opcode : List Bool := bits "1100111"

/-- Funct3 of `jalr` in the `I_TYPE` table. -/
def I_TYPE_jalr_funct3 : List Bool := bits "000"

/-- Opcode of `sw` in the simulator's `S_TYPE` table (simulator.py 17-19). -/
def S_TYPE_sw_opcode : List Bool := bits "0100011"

/-- Funct3 of `sw` in the `S_TYPE` table. -/
def S_TYPE_sw_funct3 : List Bool := bits "010"

/-- Opcode shared by the branches in the `B_TYPE` table (simulator.py 21-24). -/
def B_TYPE_beq_opcode : List Bool := bits "1100011"

/-- Funct3 of `beq` in the `B_TYPE` table. -/
def B_TYPE_beq_funct3 : List Bool := bits "000"

/-- Funct3 of `bne` in the `B_TYPE` table. -/
def B_TYPE_bne_funct3 : List Bool := bits "001"

/-- Opcode of `jal` in the simulator's `J_TYPE` table (simulator.py 26-28). -/
def J_TYPE_jal_opcode : List Bool := bits "1101111"

/-- simulator.py lines 75-105, `execute_r_type`.  Python computes `result`
and performs one `write_register` at the end of the function; the model
performs the identical write on each successful path.  Reads of the register
file are non-negative, so Python's `>>`, `|`, `&` agree with the Nat
operations used on the `srl`/`or`/`and` paths. -/
def execute_r_type (instr : List Bool) (pc : Int) (registers : Nat → Nat)
    (memory : List Nat) : Except String (Int × (Nat → Nat) × List Nat) :=
  let funct7 := instr.take 7
  let rs2 := bitsToNat ((instr.drop 7).take 5)
  let rs1 := bitsToNat ((instr.drop 12).take 5)
  let funct3 := (instr.drop 17).take 3
  let rd := bitsToNat ((instr.drop 20).take 5)
  let rs1_val := registers rs1
  let rs2_val := registers rs2
  if funct3 = R_TYPE_add_funct3 then
    if funct7 = R_TYPE_add_funct7 then
      Except.ok (pc + 4, write_register registers rd ((rs1_val : Int) + (rs2_val : Int)), memory)
    else if funct7 = R_TYPE_sub_funct7 then
      Except.ok (pc + 4, write_register registers rd ((rs1_val : Int) - (rs2_val : Int)), memory)
    else Except.error "Unknown R-type funct7"
  else if funct3 = R_TYPE_slt_funct3 then
    Except.ok (pc + 4, write_register registers rd (if (rs1_val : Int) < (rs2_val : Int) then 1 else 0), memory)
  else if funct3 = R_TYPE_srl_funct3 then
    Except.ok (pc + 4, write_register registers rd ((rs1_val >>> (rs2_val % 32) : Nat) : Int), memory)
  else if funct3 = R_TYPE_or_funct3 then
    Except.ok (pc + 4, write_register registers rd ((rs1_val ||| rs2_val : Nat) : Int), memory)
  else if funct3 = R_TYPE_and_funct3 then
    Except.ok (pc + 4, write_register registers rd ((rs1_val &&& rs2_val : Nat) : Int), memory)
  else Except.error "Unknown R-type funct3"

/-- simulator.py lines 107-131, `execute_i_type`.  On the `lw` path the
bounds check precedes the memory read, so `addr // 4` is a valid index
whenever the lookup happens (the `getD` default is never used). -/
def execute_i_type (instr : List Bool) (pc : Int) (registers : Nat → Nat)
    (memory : List Nat) : Except String (Int × (Nat → Nat) × List Nat) :=
  let imm := binary_to_decimal (instr.take 12) 12
  let rs1 := bitsToNat ((instr.drop 12).take 5)
  let funct3 := (instr.drop 17).take 3
  let rd := bitsToNat ((instr.drop 20).take 5)
  let opcode := instr.drop 25
  let rs1_val := registers rs1
  if opcode = I_TYPE_addi_opcode ∧ funct3 = I_TYPE_addi_funct3 then
    Except.ok (pc + 4, write_register registers rd ((rs1_val : Int) + imm), memory)
  else if opcode = I_TYPE_lw_opcode ∧ funct3 = I_TYPE_lw_funct3 then
    let addr := (rs1_val : Int) + imm
    if 0 ≤ addr ∧ addr < (memory.length * 4 : Nat) then
      Except.ok (pc + 4, write_register registers rd (memory.getD (addr.toNat / 4) 0 : Int), memory)
    else Except.error "Invalid memory address"
  else if opcode = I_TYPE_jalr_opcode ∧ funct3 = I_TYPE_jalr_funct3 then
    Except.ok ((rs1_val : Int) + imm, write_register registers rd (pc + 4), memory)
  else Except.error "Unknown I-type opcode/funct3"

/-- simulator.py lines 133-154, `execute_s_type`. -/
def execute_s_type (instr : List Bool) (pc : Int) (registers : Nat → Nat)
    (memory : List Nat) : Except String (Int × (Nat → Nat) × List Nat) :=
  let imm_high := instr.take 7
  let rs2 := bitsToNat ((instr.drop 7).take 5)
  let rs1 := bitsToNat ((instr.drop 12).take 5)
  let funct3 := (instr.drop 17).take 3
  let imm_low := (instr.drop 20).take 5
  let opcode := instr.drop 25
  let imm := binary_to_decimal (imm_high ++ imm_low) 12
  let rs1_val := registers rs1
  let rs2_val := registers rs2
  if opcode = S_TYPE_sw_opcode ∧ funct3 = S_TYPE_sw_funct3 then
    let addr := (rs1_val : Int) + imm
    if 0 ≤ addr ∧ addr < (memory.length * 4 : Nat) then
      Except.ok (pc + 4, registers, memory.set (addr.toNat / 4) rs2_val)
    else Except.error "Invalid memory address"
  else Except.error "Unknown S-type opcode/funct3"

/-- simulator.py lines 156-182, `execute_b_type`, including the halt special
case for `beq x0, x0, 0` checked before the branch condition is evaluated.
Python's single-character indexings `instr[0]` / `instr[24]` become
singleton lists so that the concatenation `imm_12 + imm_11 + imm_10_5 +
imm_4_1 + '0'` keeps its shape. -/
def execute_b_type (instr : List Bool) (pc : Int) (registers : Nat → Nat)
    (memory : List Nat) : Except String (Int × (Nat → Nat) × List Nat) :=
  let imm_12 := [instr.getD 0 false]
  let imm_10_5 := (instr.drop 1).take 6
  let rs2 := bitsToNat ((instr.drop 7).take 5)
  let rs1 := bitsToNat ((instr.drop 12).take 5)
  let funct3 := (instr.drop 17).take 3
  let imm_4_1 := (instr.drop 20).take 4
  let imm_11 := [instr.getD 24 false]
  let opcode := instr.drop 25
  let imm := binary_to_decimal (imm_12 ++ imm_11 ++ imm_10_5 ++ imm_4_1 ++ [false]) 13
  let rs1_val := registers rs1
  let rs2_val := registers rs2
  if rs1 = 0 ∧ rs2 = 0 ∧ imm = 0 ∧ opcode = B_TYPE_beq_opcode then
    Except.ok (-1, registers, memory)
  else if funct3 = B_TYPE_beq_funct3 then
    Except.ok (pc + (if rs1_val = rs2_val then imm else 4), registers, memory)
  else if funct3 = B_TYPE_bne_funct3 then
    Except.ok (pc + (if rs1_val ≠ rs2_val then imm else 4), registers, memory)
  else Except.error "Unknown B-type funct3"

/-- simulator.py lines 184-198, `execute_j_type`.  Python reads no register
before the `write_register` link write, and returns `pc + imm`. -/
def execute_j_type (instr : List Bool) (pc : Int) (registers : Nat → Nat)
    (memory : List Nat) : Except String (Int × (Nat → Nat) × List Nat) :=
  let imm_20 := [instr.getD 0 false]
  let imm_10_1 := (instr.drop 1).take 10
  let imm_11 := [instr.getD 11 false]
  let imm_19_12 := (instr.drop 12).take 8
  let rd := bitsToNat ((instr.drop 20).take 5)
  let opcode := instr.drop 25
  let imm := binary_to_decimal (imm_20 ++ imm_19_12 ++ imm_11 ++ imm_10_1 ++ [false]) 21
  if opcode = J_TYPE_jal_opcode then
    Except.ok (pc + imm, write_register registers rd (pc + 4), memory)
  else Except.error "Unknown J-type opcode"

/-- simulator.py lines 204-224, `execute_instruction`: opcode dispatch with
the catch-all that converts any raised error into the fatal sentinel `-2`
(no executor mutates state before raising, see the executors above). -/
def execute_instruction (instruction : List Bool) (pc : Int)
    (registers : Nat → Nat) (memory : List Nat) :
    Int × (Nat → Nat) × List Nat :=
  let opcode := instruction.drop 25
  let result :=
    if opcode = R_TYPE_add_opcode then
      execute_r_type instruction pc registers memory
    else if opcode = I_TYPE_addi_opcode ∨ opcode = I_TYPE_lw_opcode ∨ opcode = I_TYPE_jalr_opcode then
      execute_i_type instruction pc registers memory
    else if opcode = S_TYPE_sw_opcode then
      execute_s_type instruction pc registers memory
    else if opcode = B_TYPE_beq_opcode then
      execute_b_type instruction pc registers memory
    else if opcode = J_TYPE_jal_opcode then
      execute_j_type instruction pc registers memory
    else if opcode = bits "1110011" then
      Except.ok (-1, registers, memory)
    else Except.error "Unknown opcode"
  match result with
  | Except.ok r => r
  | Except.error _ => (-2, registers, memory)

/-- Reassembled B-type immediate as computed inside `execute_b_type`
(simulator.py line 166); named separately so theorem statements can speak
about the decoded immediate of a word. -/
def decode_b_imm (instr : List Bool) : Int :=
  binary_to_decimal ([instr.getD 0 false] ++ [instr.getD 24 false] ++
    (instr.drop 1).take 6 ++ (instr.drop 20).take 4 ++ [false]) 13

/-- Assembler.py.py lines 31-35, `make_binary(num, size)`: two's-complement
encoding of `num` into `size` bits.  Every caller range-checks first, so the
adjusted number is a natural below `2^size` and `toNat` is exact. -/
def make_binary (num : Int) (size : Nat) : List Bool :=
  let num := if num < 0 then 2 ^ size + num else num
  zfill size (natBits num.toNat)

/-- Immediate operand token of Assembler.py.py after the `imm_str in labels`
test: a label resolves through the label table to its byte address, any
other token is parsed as an integer literal (an unparsable token makes the
assembler exit and encodes nothing, so it needs no constructor here). -/
inductive ImmOperand where
  | label (addr : Int)
  | lit (value : Int)

/-- Assembler.py.py lines 37-55, `parse_immediate`: labels used by branches
and `jal` become word offsets `(labelPC - pc) // 4` (Python floor
division), other label uses take the raw address, literals pass through;
then the range check for a `size`-bit signed field; `sys.exit` on a failed
check is modelled as `none`. -/
def parse_immediate (imm_str : ImmOperand) (pc : Int) (inst : String)
    (size : Nat) : Option (List Bool) :=
  let imm : Int :=
    match imm_str with
    | ImmOperand.label addr =>
        if inst = "beq" ∨ inst = "bne" ∨ inst = "blt" then (addr - pc).fdiv 4
        else if inst = "jal" then (addr - pc).fdiv 4
        else addr
    | ImmOperand.lit v => v
  if ¬ (-(2 ^ (size - 1) : Int) ≤ imm ∧ imm ≤ 2 ^ (size - 1) - 1) then none
  else some (make_binary imm size)

/-- Entry of the assembler's `insts` table: opcode, funct3, funct7 bit
strings (empty when the format has none). -/
structure InstSpec where
  op : List Bool
  f3 : List Bool
  f7 : List Bool

/-- Assembler.py.py lines 15-29, the `insts` instruction-format table. -/
def insts : String → Option InstSpec
  | "add" => some ⟨bits "0110011", bits "000", bits "0000000"⟩
  | "sub" => some ⟨bits "0110011", bits "000", bits "0100000"⟩
  | "slt" => some ⟨bits "0110011", bits "010", bits "0000000"⟩
  | "or" => some ⟨bits "0110011", bits "110", bits "0000000"⟩
  | "srl" => some ⟨bits "0110011", bits "101", bits "0000000"⟩
  | "lw" => some ⟨bits "0000011", bits "010", []⟩
  | "addi" => some ⟨bits "0010011", bits "000", []⟩
  | "jalr" => some ⟨bits "1100111", bits "000", []⟩
  | "sw" => some ⟨bits "0100011", bits "010", []⟩
  | "beq" => some ⟨bits "1100011", bits "000", []⟩
  | "bne" => some ⟨bits "1100011", bits "001", []⟩
  | "blt" => some ⟨bits "1100011", bits "100", []⟩
  | "jal" => some ⟨bits "1101111", [], []⟩
  | _ => none

/-- Assembler.py.py lines 4-12, the `regs` register-name table. -/
def regs : String → Option (List Bool)
  | "zero" => some (bits "00000")
  | "ra" => some (bits "00001")
  | "sp" => some (bits "00010")
  | "gp" => some (bits "00011")
  | "tp" => some (bits "00100")
  | "t0" => some (bits "00101")
  | "t1" => some (bits "00110")
  | "t2" => some (bits "00111")
  | "s0" => some (bits "01000")
  | "s1" => some (bits "01001")
  | "a0" => some (bits "01010")
  | "a1" => some (bits "01011")
  | "a2" => some (bits "01100")
  | "a3" => some (bits "01101")
  | "a4" => some (bits "01110")
  | "a5" => some (bits "01111")
  | "a6" => some (bits "10000")
  | "a7" => some (bits "10001")
  | "s2" => some (bits "10010")
  | "s3" => some (bits "10011")
  | "s4" => some (bits "10100")
  | "s5" => some (bits "10101")
  | "s6" => some (bits "10110")
  | "s7" => some (bits "10111")
  | "s8" => some (bits "11000")
  | "s9" => some (bits "11001")
  | "s10" => some (bits "11010")
  | "s11" => some (bits "11011")
  | "t3" => some (bits "11100")
  | "t4" => some (bits "11101")
  | "t5" => some (bits "11110")
  | "t6" => some (bits "11111")
  | _ => none

/-- B-type branch of `do_instruction` (Assembler.py.py lines 106-115), with
the line already tokenised: register operands looked up in `regs`, the
immediate operand token and the current byte `pc` passed to
`parse_immediate` with a 13-bit field.  Emits
`imm_bin[0] + imm_bin[2:8] + rs2 + rs1 + f3 + imm_bin[8:12] + imm_bin[1] + op`. -/
def do_instruction_b (inst : String) (rs1_str rs2_str : String)
    (imm_str : ImmOperand) (pc : Int) : Option (List Bool) :=
  match insts inst with
  | none => none
  | some spec =>
    match regs rs1_str, regs rs2_str with
    | some rs1, some rs2 =>
      match parse_immediate imm_str pc inst 13 with
      | none => none
      | some imm_bin =>
          some ([imm_bin.getD 0 false] ++ (imm_bin.drop 2).take 6 ++ rs2 ++ rs1
            ++ spec.f3 ++ (imm_bin.drop 8).take 4 ++ [imm_bin.getD 1 false] ++ spec.op)
    | _, _ => none

/-- J-type branch of `do_instruction` (Assembler.py.py lines 118-127), with
the line already tokenised.  Emits
`imm_bin[0] + imm_bin[10:20] + imm_bin[9] + imm_bin[1:9] + rd + op`
for a 21-bit immediate field. -/
def do_instruction_j (inst : String) (rd_str : String) (imm_str : ImmOperand)
    (pc : Int) : Option (List Bool) :=
  match insts inst with
  | none => none
  | some spec =>
    match regs rd_str with
    | some rd =>
      match parse_immediate imm_str pc inst 21 with
      | none => none
      | some imm_bin =>
          some ([imm_bin.getD 0 false] ++ (imm_bin.drop 10).take 10
            ++ [imm_bin.getD 9 false] ++ (imm_bin.drop 1).take 8 ++ rd ++ spec.op)
    | none => none

/-- simulator.py lines 30-31, `initialize_registers` (renamed: the source
identifier is rejected by this project's lexical conventions): all 32
registers start at zero. -/
def init_registers : Nat → Nat := fun _ => 0

/-- simulator.py lines 33-34, `initialize_memory` (renamed as above):
`size` words of zero, default 32. -/
def init_memory (size : Nat) : List Nat := List.replicate size 0

/-- simulator.py lines 36-64, `load_program`, after file reading and the
per-line 32-bit validation: the parsed words are written at the front of
memory, failing when the program exceeds memory capacity. -/
def load_program (instructions : List Nat) (memory : List Nat) :
    Option (List Nat) :=
  if instructions.length > memory.length then none
  else some (instructions ++ memory.drop instructions.length)

/-- simulator.py line 253: the hard step ceiling. -/
def max_steps : Nat := 10000

/-- simulator.py lines 250-292, the fetch-decode-execute loop of
`run_simulation`.  State per iteration: register file, memory, `pc`,
`last_pc`, `step_count`, and the trace lines written so far (one pair
`(pc, registers-after-execution)` per executed cycle, mirroring
`format_registers(pc, registers)` written after `execute_instruction`
mutated the registers).  The result is `(halted, trace, registers, memory)`;
the final memory is what the trailing dump prints.  Python's loop
terminates through the `step_count` guard, which is the termination
measure here. -/
def run_loop (registers : Nat → Nat) (memory : List Nat) (pc last_pc : Int)
    (step_count : Nat) (trace : List (Int × (Nat → Nat))) :
    Bool × List (Int × (Nat → Nat)) × (Nat → Nat) × List Nat :=
  if 0 ≤ pc ∧ pc < (memory.length * 4 : Nat) then
    if pc = last_pc then (false, trace, registers, memory)
    else if hs : step_count > max_steps then (false, trace, registers, memory)
    else
      let registers' := fun r => if r = 0 then 0 else registers r
      let res := execute_instruction (zfill 32 (natBits (memory.getD (pc / 4).toNat 0)))
        pc registers' memory
      let trace' := trace ++ [(pc, res.2.1)]
      if res.1 = -1 then (true, trace', res.2.1, res.2.2)
      else if res.1 = -2 then (false, trace', res.2.1, res.2.2)
      else run_loop res.2.1 res.2.2 res.1 pc (step_count + 1) trace'
  else (false, trace, registers, memory)
termination_by max_steps + 1 - step_count
decreasing_by simp_wf; omega

/-- simulator.py lines 242-292, `run_simulation`, for an already-parsed
program: fresh registers and 32-word memory, load, then the loop from
`pc = 0`, `last_pc = -1`, `step_count = 0`.  A load failure returns `false`
with the untouched initial state (Python returns `False` before opening the
trace file). -/
def run_simulation (program : List Nat) :
    Bool × List (Int × (Nat → Nat)) × (Nat → Nat) × List Nat :=
  match load_program program (init_memory 32) with
  | none => (false, [], init_registers, init_memory 32)
  | some memory => run_loop init_registers memory 0 (-1) 0 []

/-- Two's-complement (signed) reading of a stored 32-bit register value.
Written from the specification's words ("signed compare", §4.5), for
comparison with the comparison the code actually performs. -/
def signed32 (v : Nat) : Int :=
  if v < 2 ^ 31 then (v : Int) else (v : Int) - 2 ^ 32

/-- Register file holding -1 (stored masked as 0xFFFFFFFF) in x1 and 1 in
x2, zero elsewhere. -/
def regsC : Nat → Nat :=
  fun r => if r = 1 then 4294967295 else if r = 2 then 1 else 0

/-- Binary program words: `beq x0, x0, +8` at byte 0, a zero word at byte 4
(never fetched), and `beq x0, x0, -8` at byte 8 — an infinite two-cycle
ping-pong that defeats the repeated-PC guard, contains no halt instruction
and never leaves the PC range. -/
def pingpong : List Nat :=
  [bitsToNat (bits "00000000000000000000010001100011"),
   bitsToNat (bits "00000000000000000000000000000000"),
   bitsToNat (bits "11111110000000000000110011100011")]

/-- Memory image after loading `pingpong` into the default 32-word memory. -/
def mem3 : List Nat := pingpong ++ (init_memory 32).drop pingpong.length

/-- Memory whose word 0 is `lw x1, -4(x0)`; executing it computes the
out-of-bounds byte address -4. -/
def memC : List Nat :=
  bitsToNat (bits "11111111110000000010000010000011") :: List.replicate 31 0

/-- Value of a bit list read least-significant-bit first; bridge between
`natBitsLE` and `bitsToNat`. -/
def leVal : List Bool → Nat
  | [] => 0
  | b :: t => (if b then 1 else 0) + 2 * leVal t

theorem bitsToNat_foldl (l : List Bool) (a : Nat) :
    l.foldl (fun acc b => 2 * acc + (if b then 1 else 0)) a
      = a * 2 ^ l.length + bitsToNat l := by
  induction l generalizing a with
  | nil => simp [bitsToNat]
  | cons b t ih =>
    simp only [bitsToNat, List.foldl_cons, List.length_cons]
    rw [ih, ih]
    ring

theorem bitsToNat_cons (b : Bool) (t : List Bool) :
    bitsToNat (b :: t) = (if b then 1 else 0) * 2 ^ t.length + bitsToNat t := by
  calc bitsToNat (b :: t)
      = t.foldl ((fun acc b => 2 * acc + (if b then 1 else 0)) : Nat → Bool → Nat)
          (2 * 0 + (if b then 1 else 0)) := rfl
    _ = (2 * 0 + (if b then 1 else 0)) * 2 ^ t.length + bitsToNat t :=
        bitsToNat_foldl t _
    _ = (if b then 1 else 0) * 2 ^ t.length + bitsToNat t := by ring

theorem bitsToNat_append (s t : List Bool) :
    bitsToNat (s ++ t) = bitsToNat s * 2 ^ t.length + bitsToNat t := by
  unfold bitsToNat
  rw [List.foldl_append, bitsToNat_foldl]
  rfl

theorem bitsToNat_lt (l : List Bool) : bitsToNat l < 2 ^ l.length := by
  induction l with
  | nil => simp [bitsToNat]
  | cons b t ih =>
    rw [bitsToNat_cons]
    have : (2 : Nat) ^ (b :: t).length = 2 ^ t.length + 2 ^ t.length := by
      simp [List.length_cons, pow_succ]; ring
    rw [this]
    cases b <;> simp <;> omega

theorem bitsToNat_replicate_false (k : Nat) :
    bitsToNat (List.replicate k false) = 0 := by
  induction k with
  | zero => simp [bitsToNat]
  | succ n ih =>
    rw [List.replicate_succ, bitsToNat_cons]
    simpa using ih

theorem bitsToNat_reverse (l : List Bool) : bitsToNat l.reverse = leVal l := by
  induction l with
  | nil => simp [bitsToNat, leVal]
  | cons b t ih =>
    rw [List.reverse_cons, bitsToNat_append, ih]
    cases b <;> simp [bitsToNat, bitsToNat_cons, leVal] <;> ring

theorem leVal_natBitsLE (n : Nat) : leVal (natBitsLE n) = n := by
  induction n using Nat.strong_induction_on with
  | _ n ih =>
    match n with
    | 0 => simp [natBitsLE_eq, leVal]
    | m + 1 =>
      rw [natBitsLE_eq, if_neg (Nat.succ_ne_zero m), leVal]
      rw [ih ((m + 1) / 2) (by omega)]
      rcases Nat.mod_two_eq_zero_or_one (m + 1) with h | h <;> simp [h] <;> omega

theorem bitsToNat_natBits (n : Nat) : bitsToNat (natBits n) = n := by
  unfold natBits
  split
  · simp [bitsToNat, *]
  · rw [bitsToNat_reverse, leVal_natBitsLE]

theorem natBitsLE_length_le {n w : Nat} (h : n < 2 ^ w) :
    (natBitsLE n).length ≤ w := by
  induction w generalizing n with
  | zero =>
    interval_cases n
    simp [natBitsLE_eq]
  | succ w ih =>
    match n with
    | 0 => simp [natBitsLE_eq]
    | m + 1 =>
      rw [natBitsLE_eq, if_neg (Nat.succ_ne_zero m)]
      have h2 : (2 : Nat) ^ (w + 1) = 2 * 2 ^ w := by rw [pow_succ]; ring
      have := ih (n := (m + 1) / 2) (by omega)
      simpa using this

theorem natBits_length_le {n w : Nat} (h : n < 2 ^ w) (hw : 1 ≤ w) :
    (natBits n).length ≤ w := by
  unfold natBits
  split
  · simpa using hw
  · simpa using natBitsLE_length_le h

theorem zfill_length {size : Nat} {s : List Bool} (h : s.length ≤ size) :
    (zfill size s).length = size := by
  unfold zfill
  simp
  omega

theorem bitsToNat_zfill (size : Nat) (s : List Bool) :
    bitsToNat (zfill size s) = bitsToNat s := by
  unfold zfill
  rw [bitsToNat_append, bitsToNat_replicate_false]
  ring

theorem getD_false_of_lt {s : List Bool} {w : Nat} (hl : s.length = w)
    (hw : 1 ≤ w) (h : bitsToNat s < 2 ^ (w - 1)) : s.getD 0 false = false := by
  match s with
  | [] => simp at hl; omega
  | b :: t =>
    cases b
    · simp
    · exfalso
      rw [bitsToNat_cons] at h
      have ht : t.length = w - 1 := by simp at hl; omega
      rw [ht, show (if true then 1 else 0) = 1 from rfl, one_mul] at h
      omega

theorem getD_true_of_ge {s : List Bool} {w : Nat} (hl : s.length = w)
    (hw : 1 ≤ w) (h : 2 ^ (w - 1) ≤ bitsToNat s) : s.getD 0 false = true := by
  match s with
  | [] => simp at hl; omega
  | b :: t =>
    cases b
    · exfalso
      rw [bitsToNat_cons] at h
      have ht : t.length = w - 1 := by simp at hl; omega
      have hlt := bitsToNat_lt t
      rw [ht] at h hlt
      rw [show (if false then 1 else 0) = 0 from rfl, zero_mul, zero_add] at h
      omega
    · simp

theorem bitsToNat_invert (s : List Bool) :
    bitsToNat (s.map (fun bit => !bit)) = 2 ^ s.length - 1 - bitsToNat s := by
  induction s with
  | nil => simp [bitsToNat]
  | cons b t ih =>
    have hlt := bitsToNat_lt t
    have hlt2 := bitsToNat_lt (t.map (fun bit => !bit))
    rw [List.length_map] at hlt2
    have h2 : (2 : Nat) ^ (t.length + 1) = 2 ^ t.length + 2 ^ t.length := by
      rw [pow_succ]; ring
    rw [List.map_cons, bitsToNat_cons, bitsToNat_cons, ih]
    cases b <;> simp [List.length_cons, h2] <;> omega

theorem make_binary_length {v : Int} {size : Nat} (hsize : 1 ≤ size)
    (h1 : -(2 ^ (size - 1) : Int) ≤ v) (h2 : v ≤ 2 ^ (size - 1) - 1) :
    (make_binary v size).length = size := by
  unfold make_binary
  have hN : ((2 ^ (size - 1) : Nat) : Int) = (2 : Int) ^ (size - 1) := by
    push_cast
    ring
  have hpow2 : (2 : Nat) ^ size = 2 ^ (size - 1) * 2 := by
    rw [← pow_succ]
    congr 1
    omega
  have hpowI : (2 : Int) ^ size = 2 ^ (size - 1) * 2 := by
    rw [← pow_succ]
    congr 1
    omega
  have hx : 0 < (2 : Nat) ^ (size - 1) := pow_pos (by norm_num) _
  rw [← hN] at h1 h2
  apply zfill_length
  apply natBits_length_le _ hsize
  rw [hpow2]
  split
  · rw [hpowI, ← hN]
    omega
  · omega

theorem bitsToNat_make_binary (v : Int) (size : Nat) :
    bitsToNat (make_binary v size)
      = (if v < 0 then 2 ^ size + v else v).toNat := by
  unfold make_binary
  rw [bitsToNat_zfill, bitsToNat_natBits]

theorem binary_to_decimal_make_binary {v : Int} {w : Nat} (hw : 1 ≤ w)
    (h1 : -(2 ^ (w - 1) : Int) ≤ v) (h2 : v ≤ 2 ^ (w - 1) - 1) :
    binary_to_decimal (make_binary v w) w = v := by
  have hlen := make_binary_length hw h1 h2
  have hval := bitsToNat_make_binary v w
  have hN : ((2 ^ (w - 1) : Nat) : Int) = (2 : Int) ^ (w - 1) := by
    push_cast
    ring
  have hpow2 : (2 : Nat) ^ w = 2 ^ (w - 1) * 2 := by
    rw [← pow_succ]
    congr 1
    omega
  have hpowI : (2 : Int) ^ w = 2 ^ (w - 1) * 2 := by
    rw [← pow_succ]
    congr 1
    omega
  have hx : 0 < (2 : Nat) ^ (w - 1) := pow_pos (by norm_num) _
  rw [← hN] at h1 h2
  rw [hpowI, ← hN] at hval
  simp only [binary_to_decimal]
  rw [if_neg (show ¬ ((make_binary v w).length > w) by omega)]
  by_cases hv : v < 0
  · rw [if_pos hv] at hval
    have hge : 2 ^ (w - 1) ≤ bitsToNat (make_binary v w) := by omega
    rw [getD_true_of_ge hlen hw hge, if_pos rfl, bitsToNat_invert, hlen, hpow2]
    omega
  · rw [if_neg hv] at hval
    have hlt : bitsToNat (make_binary v w) < 2 ^ (w - 1) := by omega
    rw [getD_false_of_lt hlen hw hlt, if_neg (by simp)]
    omega

theorem drop_append_of_le {α : Type} (A B : List α) (n : Nat)
    (h : A.length ≤ n) : (A ++ B).drop n = B.drop (n - A.length) := by
  induction A generalizing n with
  | nil => simp
  | cons a t ih =>
    cases n with
    | zero => simp at h
    | succ m =>
      simp only [List.cons_append, List.drop_succ_cons, List.length_cons]
      rw [ih _ (by simpa using h)]
      congr 1
      omega

theorem execute_instruction_b (instr : List Bool) (pc : Int)
    (registers : Nat → Nat) (memory : List Nat)
    (hop : instr.drop 25 = bits "1100011") :
    execute_instruction instr pc registers memory
      = match execute_b_type instr pc registers memory with
        | Except.ok r => r
        | Except.error _ => (-2, registers, memory) := by
  simp only [execute_instruction, hop]
  rw [if_neg (by decide), if_neg (by decide), if_neg (by decide), if_pos (by decide)]

theorem execute_instruction_r (instr : List Bool) (pc : Int)
    (registers : Nat → Nat) (memory : List Nat)
    (hop : instr.drop 25 = bits "0110011") :
    execute_instruction instr pc registers memory
      = match execute_r_type instr pc registers memory with
        | Except.ok r => r
        | Except.error _ => (-2, registers, memory) := by
  simp only [execute_instruction, hop]
  rw [if_pos (by decide : bits "0110011" = R_TYPE_add_opcode)]

theorem execute_instruction_lw_op (instr : List Bool) (pc : Int)
    (registers : Nat → Nat) (memory : List Nat)
    (hop : instr.drop 25 = bits "0000011") :
    execute_instruction instr pc registers memory
      = match execute_i_type instr pc registers memory with
        | Except.ok r => r
        | Except.error _ => (-2, registers, memory) := by
  simp only [execute_instruction, hop]
  rw [if_neg (by decide), if_pos (by decide)]

theorem execute_instruction_sw_op (instr : List Bool) (pc : Int)
    (registers : Nat → Nat) (memory : List Nat)
    (hop : instr.drop 25 = bits "0100011") :
    execute_instruction instr pc registers memory
      = match execute_s_type instr pc registers memory with
        | Except.ok r => r
        | Except.error _ => (-2, registers, memory) := by
  simp only [execute_instruction, hop]
  rw [if_neg (by decide), if_neg (by decide), if_pos (by decide)]

theorem execute_b_type_halt (instr : List Bool) (pc : Int)
    (registers : Nat → Nat) (memory : List Nat)
    (hrs1 : bitsToNat ((instr.drop 12).take 5) = 0)
    (hrs2 : bitsToNat ((instr.drop 7).take 5) = 0)
    (himm : decode_b_imm instr = 0)
    (hop : instr.drop 25 = bits "1100011") :
    execute_b_type instr pc registers memory
      = Except.ok (-1, registers, memory) := by
  simp only [execute_b_type]
  rw [if_pos ⟨hrs1, hrs2, himm, hop.trans rfl⟩]

theorem write_register_get_zero (registers : Nat → Nat) (reg_num : Nat)
    (value : Int) : (write_register registers reg_num value) 0 = registers 0 := by
  unfold write_register
  split
  · show (if 0 = reg_num then (value % 4294967296).toNat else registers 0)
        = registers 0
    rw [if_neg (by omega)]
  · rfl

theorem execute_r_type_get_zero (instr : List Bool) (pc : Int)
    (registers : Nat → Nat) (memory : List Nat)
    (r : Int × (Nat → Nat) × List Nat)
    (h : execute_r_type instr pc registers memory = Except.ok r) :
    r.2.1 0 = registers 0 := by
  simp only [execute_r_type] at h
  split_ifs at h <;>
    first
      | (cases h; exact write_register_get_zero _ _ _)
      | simp at h

theorem execute_i_type_get_zero (instr : List Bool) (pc : Int)
    (registers : Nat → Nat) (memory : List Nat)
    (r : Int × (Nat → Nat) × List Nat)
    (h : execute_i_type instr pc registers memory = Except.ok r) :
    r.2.1 0 = registers 0 := by
  simp only [execute_i_type] at h
  split_ifs at h <;>
    first
      | (cases h; exact write_register_get_zero _ _ _)
      | simp at h

theorem execute_s_type_get_zero (instr : List Bool) (pc : Int)
    (registers : Nat → Nat) (memory : List Nat)
    (r : Int × (Nat → Nat) × List Nat)
    (h : execute_s_type instr pc registers memory = Except.ok r) :
    r.2.1 0 = registers 0 := by
  simp only [execute_s_type] at h
  split_ifs at h <;>
    first
      | (cases h; rfl)
      | simp at h

theorem execute_b_type_get_zero (instr : List Bool) (pc : Int)
    (registers : Nat → Nat) (memory : List Nat)
    (r : Int × (Nat → Nat) × List Nat)
    (h : execute_b_type instr pc registers memory = Except.ok r) :
    r.2.1 0 = registers 0 := by
  simp only [execute_b_type] at h
  split_ifs at h <;>
    first
      | (cases h; rfl)
      | simp at h

theorem execute_j_type_get_zero (instr : List Bool) (pc : Int)
    (registers : Nat → Nat) (memory : List Nat)
    (r : Int × (Nat → Nat) × List Nat)
    (h : execute_j_type instr pc registers memory = Except.ok r) :
    r.2.1 0 = registers 0 := by
  simp only [execute_j_type] at h
  split_ifs at h <;>
    first
      | (cases h; exact write_register_get_zero _ _ _)
      | simp at h

theorem execute_instruction_get_zero (instruction : List Bool) (pc : Int)
    (registers : Nat → Nat) (memory : List Nat) :
    ((execute_instruction instruction pc registers memory).2.1) 0
      = registers 0 := by
  simp only [execute_instruction]
  split_ifs
  · cases hE : execute_r_type instruction pc registers memory with
    | ok r =>
      simp only [hE]
      exact execute_r_type_get_zero _ _ _ _ _ hE
    | error e => simp only [hE]
  · cases hE : execute_i_type instruction pc registers memory with
    | ok r =>
      simp only [hE]
      exact execute_i_type_get_zero _ _ _ _ _ hE
    | error e => simp only [hE]
  · cases hE : execute_s_type instruction pc registers memory with
    | ok r =>
      simp only [hE]
      exact execute_s_type_get_zero _ _ _ _ _ hE
    | error e => simp only [hE]
  · cases hE : execute_b_type instruction pc registers memory with
    | ok r =>
      simp only [hE]
      exact execute_b_type_get_zero _ _ _ _ _ hE
    | error e => simp only [hE]
  · cases hE : execute_j_type instruction pc registers memory with
    | ok r =>
      simp only [hE]
      exact execute_j_type_get_zero _ _ _ _ _ hE
    | error e => simp only [hE]
  · rfl
  · rfl

theorem run_loop_exit_oob (registers : Nat → Nat) (memory : List Nat)
    (pc last_pc : Int) (step_count : Nat) (trace : List (Int × (Nat → Nat)))
    (h : ¬ (0 ≤ pc ∧ pc < (memory.length * 4 : Nat))) :
    run_loop registers memory pc last_pc step_count trace
      = (false, trace, registers, memory) := by
  conv_lhs => rw [run_loop]
  rw [if_neg h]

theorem run_loop_exit_last (registers : Nat → Nat) (memory : List Nat)
    (pc last_pc : Int) (step_count : Nat) (trace : List (Int × (Nat → Nat)))
    (h1 : 0 ≤ pc ∧ pc < (memory.length * 4 : Nat)) (h2 : pc = last_pc) :
    run_loop registers memory pc last_pc step_count trace
      = (false, trace, registers, memory) := by
  conv_lhs => rw [run_loop]
  rw [if_pos h1, if_pos h2]

theorem run_loop_exit_guard (registers : Nat → Nat) (memory : List Nat)
    (pc last_pc : Int) (step_count : Nat) (trace : List (Int × (Nat → Nat)))
    (h1 : 0 ≤ pc ∧ pc < (memory.length * 4 : Nat)) (h2 : pc ≠ last_pc)
    (h3 : step_count > max_steps) :
    run_loop registers memory pc last_pc step_count trace
      = (false, trace, registers, memory) := by
  conv_lhs => rw [run_loop]
  rw [if_pos h1, if_neg h2, dif_pos h3]

theorem run_loop_step (registers : Nat → Nat) (memory : List Nat)
    (pc last_pc : Int) (step_count : Nat) (trace : List (Int × (Nat → Nat)))
    (h1 : 0 ≤ pc ∧ pc < (memory.length * 4 : Nat)) (h2 : pc ≠ last_pc)
    (h3 : ¬ step_count > max_steps) :
    run_loop registers memory pc last_pc step_count trace
      = (let res := execute_instruction
            (zfill 32 (natBits (memory.getD (pc / 4).toNat 0))) pc
            (fun r => if r = 0 then 0 else registers r) memory;
         let trace' := trace ++ [(pc, res.2.1)];
         if res.1 = -1 then (true, trace', res.2.1, res.2.2)
         else if res.1 = -2 then (false, trace', res.2.1, res.2.2)
         else run_loop res.2.1 res.2.2 res.1 pc (step_count + 1) trace') := by
  conv_lhs => rw [run_loop]
  rw [if_pos h1, if_neg h2, dif_neg h3]

theorem run_loop_get_zero (fuel : Nat) : ∀ (registers : Nat → Nat)
    (memory : List Nat) (pc last_pc : Int) (step_count : Nat)
    (trace : List (Int × (Nat → Nat))),
    max_steps + 1 - step_count ≤ fuel → registers 0 = 0 →
    ((run_loop registers memory pc last_pc step_count trace).2.2.1) 0 = 0 := by
  induction fuel with
  | zero =>
    intro registers memory pc last_pc step_count trace hfuel h0
    by_cases hc1 : 0 ≤ pc ∧ pc < (memory.length * 4 : Nat)
    · by_cases hc2 : pc = last_pc
      · rw [run_loop_exit_last _ _ _ _ _ _ hc1 hc2]
        exact h0
      · rw [run_loop_exit_guard _ _ _ _ _ _ hc1 hc2 (by unfold max_steps at *; omega)]
        exact h0
    · rw [run_loop_exit_oob _ _ _ _ _ _ hc1]
      exact h0
  | succ n ih =>
    intro registers memory pc last_pc step_count trace hfuel h0
    by_cases hc1 : 0 ≤ pc ∧ pc < (memory.length * 4 : Nat)
    · by_cases hc2 : pc = last_pc
      · rw [run_loop_exit_last _ _ _ _ _ _ hc1 hc2]
        exact h0
      · by_cases hc3 : step_count > max_steps
        · rw [run_loop_exit_guard _ _ _ _ _ _ hc1 hc2 hc3]
          exact h0
        · rw [run_loop_step _ _ _ _ _ _ hc1 hc2 hc3]
          have hz : ((execute_instruction
              (zfill 32 (natBits (memory.getD (pc / 4).toNat 0))) pc
              (fun r => if r = 0 then 0 else registers r) memory).2.1) 0 = 0 :=
            (execute_instruction_get_zero _ _ _ _).trans rfl
          dsimp only
          split_ifs
          · exact hz
          · exact hz
          · exact ih _ _ _ _ _ _ (by omega) hz
    · rw [run_loop_exit_oob _ _ _ _ _ _ hc1]
      exact h0

theorem run_loop_trace_bound (fuel : Nat) : ∀ (registers : Nat → Nat)
    (memory : List Nat) (pc last_pc : Int) (step_count : Nat)
    (trace : List (Int × (Nat → Nat))),
    max_steps + 1 - step_count ≤ fuel →
    (run_loop registers memory pc last_pc step_count trace).2.1.length
      ≤ trace.length + (max_steps + 1 - step_count) := by
  induction fuel with
  | zero =>
    intro registers memory pc last_pc step_count trace hfuel
    by_cases hc1 : 0 ≤ pc ∧ pc < (memory.length * 4 : Nat)
    · by_cases hc2 : pc = last_pc
      · rw [run_loop_exit_last _ _ _ _ _ _ hc1 hc2]
        simp
      · rw [run_loop_exit_guard _ _ _ _ _ _ hc1 hc2 (by unfold max_steps at *; omega)]
        simp
    · rw [run_loop_exit_oob _ _ _ _ _ _ hc1]
      simp
  | succ n ih =>
    intro registers memory pc last_pc step_count trace hfuel
    by_cases hc1 : 0 ≤ pc ∧ pc < (memory.length * 4 : Nat)
    · by_cases hc2 : pc = last_pc
      · rw [run_loop_exit_last _ _ _ _ _ _ hc1 hc2]
        simp
      · by_cases hc3 : step_count > max_steps
        · rw [run_loop_exit_guard _ _ _ _ _ _ hc1 hc2 hc3]
          simp
        · rw [run_loop_step _ _ _ _ _ _ hc1 hc2 hc3]
          dsimp only
          split_ifs
          · simp
            omega
          · simp
            omega
          · refine le_trans (ih _ _ _ _ _ _ (by omega)) ?_
            simp
            omega
    · rw [run_loop_exit_oob _ _ _ _ _ _ hc1]
      simp

theorem init_registers_zeroed :
    (fun r => if r = 0 then 0 else init_registers r) = init_registers := by
  funext r
  unfold init_registers
  split <;> rfl

theorem pingpong_step0 (last_pc : Int) (step_count : Nat)
    (trace : List (Int × (Nat → Nat)))
    (hlp : (0 : Int) ≠ last_pc) (hsc : step_count ≤ max_steps) :
    run_loop init_registers mem3 0 last_pc step_count trace
      = run_loop init_registers mem3 8 0 (step_count + 1)
          (trace ++ [(0, init_registers)]) := by
  rw [run_loop_step _ _ _ _ _ _ (by decide) hlp (by omega), init_registers_zeroed]
  dsimp only
  rw [show execute_instruction (zfill 32 (natBits (mem3.getD (((0 : Int)) / 4).toNat 0)))
        0 init_registers mem3 = (8, init_registers, mem3) from rfl]
  dsimp only
  rw [if_neg (by decide), if_neg (by decide)]

theorem pingpong_step8 (last_pc : Int) (step_count : Nat)
    (trace : List (Int × (Nat → Nat)))
    (hlp : (8 : Int) ≠ last_pc) (hsc : step_count ≤ max_steps) :
    run_loop init_registers mem3 8 last_pc step_count trace
      = run_loop init_registers mem3 0 8 (step_count + 1)
          (trace ++ [(8, init_registers)]) := by
  rw [run_loop_step _ _ _ _ _ _ (by decide) hlp (by omega), init_registers_zeroed]
  dsimp only
  rw [show execute_instruction (zfill 32 (natBits (mem3.getD (((8 : Int)) / 4).toNat 0)))
        8 init_registers mem3 = (0, init_registers, mem3) from rfl]
  dsimp only
  rw [if_neg (by decide), if_neg (by decide)]

theorem pingpong_last (trace : List (Int × (Nat → Nat))) :
    run_loop init_registers mem3 0 8 max_steps trace
      = (false, trace ++ [(0, init_registers)], init_registers, mem3) := by
  rw [pingpong_step0 8 max_steps trace (by decide) le_rfl]
  rw [run_loop_exit_guard _ _ _ _ _ _ (by decide) (by decide) (by omega)]

theorem pingpong_descend (j : Nat) : ∀ (trace : List (Int × (Nat → Nat))),
    j ≤ 5000 →
    ∃ tr', run_loop init_registers mem3 0 8 (max_steps - 2 * j) trace
        = (false, tr', init_registers, mem3)
      ∧ tr'.length = trace.length + (2 * j + 1) := by
  induction j with
  | zero =>
    intro trace _
    refine ⟨trace ++ [(0, init_registers)], ?_, by simp⟩
    rw [show max_steps - 2 * 0 = max_steps by omega, pingpong_last]
  | succ j ih =>
    intro trace hj
    rw [pingpong_step0 8 _ trace (by decide) (by unfold max_steps; omega)]
    rw [pingpong_step8 0 _ _ (by decide) (by unfold max_steps; omega)]
    rw [show max_steps - 2 * (j + 1) + 1 + 1 = max_steps - 2 * j by
      unfold max_steps; omega]
    obtain ⟨tr', heq, hlen⟩ :=
      ih (trace ++ [(0, init_registers)] ++ [(8, init_registers)]) (by omega)
    refine ⟨tr', heq, ?_⟩
    simp at hlen
    simp [hlen]
    ring

theorem pingpong_run :
    ∃ tr', run_simulation pingpong = (false, tr', init_registers, mem3)
      ∧ tr'.length = 10001 := by
  rw [show run_simulation pingpong
      = run_loop init_registers mem3 0 (-1) 0 [] from rfl]
  rw [pingpong_step0 (-1) 0 [] (by decide) (Nat.zero_le _)]
  rw [pingpong_step8 0 (0 + 1) _ (by decide) (by unfold max_steps; omega)]
  rw [show (0 + 1 + 1 : Nat) = max_steps - 2 * 4999 by unfold max_steps; omega]
  obtain ⟨tr', heq, hlen⟩ := pingpong_descend 4999 _ (by omega)
  refine ⟨tr', heq, ?_⟩
  simp at hlen
  omega

/-- C2: Bit-codec round trip — for every width `w` in {12, 13, 21} and every
signed integer `v` with `-2^(w-1) ≤ v ≤ 2^(w-1) - 1`, decoding the `w`-bit
two's-complement string produced by the encoder gives back `v`:
`binary_to_decimal (make_binary v w) w = v`. -/
theorem bit_codec_roundtrip (w : Nat) (v : Int) (hw : w = 12 ∨ w = 13 ∨ w = 21)
    (h1 : -(2 ^ (w - 1) : Int) ≤ v) (h2 : v ≤ 2 ^ (w - 1) - 1) :
    binary_to_decimal (make_binary v w) w = v := by
  rcases hw with h | h | h <;> subst h <;>
    exact binary_to_decimal_make_binary (by norm_num) h1 h2

/-- Witness for C2 at `w = 13`, `v = -1`. -/
theorem bit_codec_roundtrip_witness :
    binary_to_decimal (make_binary (-1) 13) 13 = -1 :=
  bit_codec_roundtrip 13 (-1) (Or.inr (Or.inl rfl)) (by norm_num) (by norm_num)

/-- C3: Zero-register invariant — writes to register 0 are silently
discarded (`write_register`), no instruction execution changes the value
read from slot 0, and along any run of the simulation loop (which re-zeroes
`x0` each cycle) the final register file still reads 0 at slot 0 whenever
the starting one does, as it does for the initial all-zero file. -/
theorem zero_register_invariant :
    (∀ (registers : Nat → Nat) (value : Int),
        write_register registers 0 value = registers)
  ∧ (∀ (instruction : List Bool) (pc : Int) (registers : Nat → Nat)
        (memory : List Nat),
        ((execute_instruction instruction pc registers memory).2.1) 0
          = registers 0)
  ∧ (∀ (registers : Nat → Nat) (memory : List Nat) (pc last_pc : Int)
        (step_count : Nat) (trace : List (Int × (Nat → Nat))),
        registers 0 = 0 →
        ((run_loop registers memory pc last_pc step_count trace).2.2.1) 0
          = 0) := by
  refine ⟨?_, execute_instruction_get_zero, ?_⟩
  · intro registers value
    unfold write_register
    rw [if_neg (by omega)]
  · intro registers memory pc last_pc step_count trace h0
    exact run_loop_get_zero (max_steps + 1 - step_count) _ _ _ _ _ _ le_rfl h0

/-- Witness for C3: the full run from the initial all-zero register file. -/
theorem zero_register_invariant_witness :
    ((run_loop init_registers (init_memory 32) 0 (-1) 0 []).2.2.1) 0 = 0 :=
  zero_register_invariant.2.2 init_registers (init_memory 32) 0 (-1) 0 [] rfl

/-- C4: Halt precedence — executing a word with the branch opcode, `beq`
funct3, rs1 field 0, rs2 field 0 and decoded immediate 0 returns the halt
sentinel `-1` on that cycle, for every register file, memory and pc, and
mutates neither registers nor memory (the code returns before evaluating
the branch condition). -/
theorem halt_precedence (instr : List Bool) (pc : Int) (registers : Nat → Nat)
    (memory : List Nat) (hlen : instr.length = 32)
    (hop : instr.drop 25 = bits "1100011")
    (hf3 : (instr.drop 17).take 3 = bits "000")
    (hrs1 : bitsToNat ((instr.drop 12).take 5) = 0)
    (hrs2 : bitsToNat ((instr.drop 7).take 5) = 0)
    (himm : decode_b_imm instr = 0) :
    execute_instruction instr pc registers memory = (-1, registers, memory) := by
  rw [execute_instruction_b _ _ _ _ hop,
      execute_b_type_halt _ _ _ _ hrs1 hrs2 himm hop]

/-- Witness for C4: the canonical halt word `beq x0, x0, 0` in a non-trivial
machine state. -/
theorem halt_precedence_witness :
    execute_instruction (bits "00000000000000000000000001100011") 5
        (fun _ => 7) [1, 2] = (-1, (fun _ => 7), [1, 2]) :=
  halt_precedence (bits "00000000000000000000000001100011") 5 (fun _ => 7)
    [1, 2] rfl (by decide) (by decide) (by decide) (by decide) (by decide)

/-- C9: Funct3-blind halt — the halt special case checks only the rs1/rs2
fields, the decoded immediate and the shared branch opcode, never funct3:
every word with opcode 1100011 whose rs1 field, rs2 field and decoded
immediate are zero halts, whatever its funct3 (e.g. `bne x0, x0, 0`, or a
funct3 naming no branch at all). -/
theorem funct3_blind_halt (instr : List Bool) (pc : Int)
    (registers : Nat → Nat) (memory : List Nat) (hlen : instr.length = 32)
    (hop : instr.drop 25 = bits "1100011")
    (hrs1 : bitsToNat ((instr.drop 12).take 5) = 0)
    (hrs2 : bitsToNat ((instr.drop 7).take 5) = 0)
    (himm : decode_b_imm instr = 0) :
    execute_instruction instr pc registers memory = (-1, registers, memory) := by
  rw [execute_instruction_b _ _ _ _ hop,
      execute_b_type_halt _ _ _ _ hrs1 hrs2 himm hop]

/-- Witness for C9: `bne x0, x0, 0` (funct3 = 001) halts. -/
theorem funct3_blind_halt_witness :
    execute_instruction (bits "00000000000000000001000001100011") 12
        (fun _ => 9) [3] = (-1, (fun _ => 9), [3]) :=
  funct3_blind_halt (bits "00000000000000000001000001100011") 12 (fun _ => 9)
    [3] rfl (by decide) (by decide) (by decide) (by decide)

/-- C10: Silent stop on out-of-range PC — entering the fetch loop with a PC
outside `[0, memorySize*4)` (and not a halt/error sentinel) terminates it
before any fetch: no fault, no trace line is added, the register file and
the memory (which the trailing dump prints) are untouched, and the run is
reported unsuccessful (`false`). -/
theorem out_of_range_pc_silent_stop (registers : Nat → Nat)
    (memory : List Nat) (pc last_pc : Int) (step_count : Nat)
    (trace : List (Int × (Nat → Nat)))
    (hoob : ¬ (0 ≤ pc ∧ pc < (memory.length * 4 : Nat)))
    (hhalt : pc ≠ -1) (herr : pc ≠ -2) :
    run_loop registers memory pc last_pc step_count trace
      = (false, trace, registers, memory) :=
  run_loop_exit_oob registers memory pc last_pc step_count trace hoob

/-- Witness for C10 at PC 200 with the default 32-word memory. -/
theorem out_of_range_pc_silent_stop_witness :
    run_loop init_registers (init_memory 32) 200 (-1) 0 []
      = (false, [], init_registers, init_memory 32) :=
  out_of_range_pc_silent_stop init_registers (init_memory 32) 200 (-1) 0 []
    (by decide) (by decide) (by decide)

/-- C7 (amended): Step ceiling — the loop executes at most 10,001 cycles
(`max_steps + 1`, because the guard `step_count > max_steps` is tested
before the increment), writing one trace line per cycle; the halt-free
in-range `pingpong` program reaches exactly 10,001 trace lines and the run
is reported unsuccessful. -/
theorem step_ceiling :
    (∀ (registers : Nat → Nat) (memory : List Nat) (pc last_pc : Int)
        (step_count : Nat) (trace : List (Int × (Nat → Nat))),
        (run_loop registers memory pc last_pc step_count trace).2.1.length
          ≤ trace.length + (max_steps + 1 - step_count))
  ∧ (run_simulation pingpong).1 = false
  ∧ (run_simulation pingpong).2.1.length = 10001 := by
  refine ⟨fun registers memory pc last_pc step_count trace =>
    run_loop_trace_bound (max_steps + 1 - step_count) registers memory pc
      last_pc step_count trace le_rfl, ?_, ?_⟩
  · obtain ⟨tr', heq, _⟩ := pingpong_run
    rw [heq]
  · obtain ⟨tr', heq, hlen⟩ := pingpong_run
    rw [heq]
    exact hlen

/-- C7 counterexample: the `pingpong` run writes 10,001 trace lines, not the
10,000 the claim states. -/
theorem step_ceiling_counterexample :
    (run_simulation pingpong).2.1.length ≠ 10000 := by
  obtain ⟨tr', heq, hlen⟩ := pingpong_run
  rw [heq]
  show tr'.length ≠ 10000
  omega

/-- C5: Memory bounds enforcement with atomicity — a `lw` or `sw` whose
computed byte address `rs1 + imm` falls outside `[0, memorySize*4)` makes
`execute_instruction` return the fatal sentinel `-2` with registers and
memory unchanged; and when the fetched instruction of a loop iteration
returns `-2`, the loop stops there, reporting the run unsuccessful. -/
theorem memory_bounds_fault :
    (∀ (instr : List Bool) (pc : Int) (registers : Nat → Nat)
        (memory : List Nat),
        instr.drop 25 = bits "0000011" →
        (instr.drop 17).take 3 = bits "010" →
        ¬ (0 ≤ (registers (bitsToNat ((instr.drop 12).take 5)) : Int)
              + binary_to_decimal (instr.take 12) 12
            ∧ (registers (bitsToNat ((instr.drop 12).take 5)) : Int)
              + binary_to_decimal (instr.take 12) 12
              < (memory.length * 4 : Nat)) →
        execute_instruction instr pc registers memory
          = (-2, registers, memory))
  ∧ (∀ (instr : List Bool) (pc : Int) (registers : Nat → Nat)
        (memory : List Nat),
        instr.drop 25 = bits "0100011" →
        (instr.drop 17).take 3 = bits "010" →
        ¬ (0 ≤ (registers (bitsToNat ((instr.drop 12).take 5)) : Int)
              + binary_to_decimal (instr.take 7 ++ (instr.drop 20).take 5) 12
            ∧ (registers (bitsToNat ((instr.drop 12).take 5)) : Int)
              + binary_to_decimal (instr.take 7 ++ (instr.drop 20).take 5) 12
              < (memory.length * 4 : Nat)) →
        execute_instruction instr pc registers memory
          = (-2, registers, memory))
  ∧ (∀ (registers : Nat → Nat) (memory : List Nat) (pc last_pc : Int)
        (step_count : Nat) (trace : List (Int × (Nat → Nat))),
        (0 ≤ pc ∧ pc < (memory.length * 4 : Nat)) → pc ≠ last_pc →
        ¬ step_count > max_steps →
        (execute_instruction (zfill 32 (natBits (memory.getD (pc / 4).toNat 0)))
            pc (fun r => if r = 0 then 0 else registers r) memory).1 = -2 →
        run_loop registers memory pc last_pc step_count trace
          = (false,
             trace ++ [(pc, (execute_instruction
               (zfill 32 (natBits (memory.getD (pc / 4).toNat 0))) pc
               (fun r => if r = 0 then 0 else registers r) memory).2.1)],
             (execute_instruction
               (zfill 32 (natBits (memory.getD (pc / 4).toNat 0))) pc
               (fun r => if r = 0 then 0 else registers r) memory).2.1,
             (execute_instruction
               (zfill 32 (natBits (memory.getD (pc / 4).toNat 0))) pc
               (fun r => if r = 0 then 0 else registers r) memory).2.2)) := by
  refine ⟨?_, ?_, ?_⟩
  · intro instr pc registers memory hop hf3 hoob
    rw [execute_instruction_lw_op _ _ _ _ hop]
    have hE : execute_i_type instr pc registers memory
        = Except.error "Invalid memory address" := by
      simp only [execute_i_type, hop, hf3]
      rw [if_neg (by decide), if_pos (by decide), if_neg hoob]
    rw [hE]
  · intro instr pc registers memory hop hf3 hoob
    rw [execute_instruction_sw_op _ _ _ _ hop]
    have hE : execute_s_type instr pc registers memory
        = Except.error "Invalid memory address" := by
      simp only [execute_s_type, hop, hf3]
      rw [if_pos (by decide), if_neg hoob]
    rw [hE]
  · intro registers memory pc last_pc step_count trace h1 h2 h3 hfault
    rw [run_loop_step _ _ _ _ _ _ h1 h2 h3]
    dsimp only
    rw [hfault]
    rw [if_neg (by decide), if_pos rfl]

/-- Witness for C5: `lw x1, -4(x0)` and `sw x0, -4(x0)` fault with the
state untouched, and a run fetching the faulting `lw` at PC 0 stops with
the run reported unsuccessful after that one trace line. -/
theorem memory_bounds_fault_witness :
    execute_instruction (bits "11111111110000000010000010000011") 0
        init_registers (init_memory 32) = (-2, init_registers, init_memory 32)
  ∧ execute_instruction (bits "11111110000000000010111000100011") 4
        init_registers (init_memory 32) = (-2, init_registers, init_memory 32)
  ∧ run_loop init_registers memC 0 (-1) 0 []
      = (false,
         [] ++ [(0, (execute_instruction
           (zfill 32 (natBits (memC.getD (((0 : Int)) / 4).toNat 0))) 0
           (fun r => if r = 0 then 0 else init_registers r) memC).2.1)],
         (execute_instruction
           (zfill 32 (natBits (memC.getD (((0 : Int)) / 4).toNat 0))) 0
           (fun r => if r = 0 then 0 else init_registers r) memC).2.1,
         (execute_instruction
           (zfill 32 (natBits (memC.getD (((0 : Int)) / 4).toNat 0))) 0
           (fun r => if r = 0 then 0 else init_registers r) memC).2.2) :=
  ⟨memory_bounds_fault.1 _ 0 init_registers (init_memory 32) (by decide)
      (by decide) (by decide),
   memory_bounds_fault.2.1 _ 4 init_registers (init_memory 32) (by decide)
      (by decide) (by decide),
   memory_bounds_fault.2.2 init_registers memC 0 (-1) 0 [] (by decide)
      (by decide) (by decide) (by decide)⟩

theorem execute_r_type_slt (instr : List Bool) (pc : Int)
    (registers : Nat → Nat) (memory : List Nat)
    (hf3 : (instr.drop 17).take 3 = bits "010") :
    execute_r_type instr pc registers memory
      = Except.ok (pc + 4,
          write_register registers (bitsToNat ((instr.drop 20).take 5))
            (if (registers (bitsToNat ((instr.drop 12).take 5)) : Int)
                < (registers (bitsToNat ((instr.drop 7).take 5)) : Int)
             then 1 else 0),
          memory) := by
  simp only [execute_r_type, hf3]
  rw [if_neg (by decide), if_pos (by decide)]

/-- C6 (amended): `slt` compares the raw stored register values — the
masked non-negative 32-bit numbers — so it is an unsigned comparison: rd
(when non-zero) receives 1 exactly when the stored value of rs1 is below
the stored value of rs2.  In particular a register holding -1 (stored
0xFFFFFFFF) compares greater than a register holding 1. -/
theorem slt_unsigned_compare (instr : List Bool) (pc : Int)
    (registers : Nat → Nat) (memory : List Nat)
    (hop : instr.drop 25 = bits "0110011")
    (hf3 : (instr.drop 17).take 3 = bits "010")
    (hrd : bitsToNat ((instr.drop 20).take 5) ≠ 0) :
    ((execute_instruction instr pc registers memory).2.1)
        (bitsToNat ((instr.drop 20).take 5))
      = if registers (bitsToNat ((instr.drop 12).take 5))
            < registers (bitsToNat ((instr.drop 7).take 5)) then 1 else 0 := by
  rw [execute_instruction_r _ _ _ _ hop, execute_r_type_slt _ _ _ _ hf3]
  show (write_register registers (bitsToNat ((instr.drop 20).take 5)) _)
      (bitsToNat ((instr.drop 20).take 5)) = _
  unfold write_register
  rw [if_pos hrd]
  show (if bitsToNat ((instr.drop 20).take 5) = bitsToNat ((instr.drop 20).take 5)
        then (((if (registers (bitsToNat ((instr.drop 12).take 5)) : Int)
                < (registers (bitsToNat ((instr.drop 7).take 5)) : Int)
               then 1 else 0) : Int) % 4294967296).toNat
        else registers (bitsToNat ((instr.drop 20).take 5))) = _
  rw [if_pos rfl]
  by_cases hc : registers (bitsToNat ((instr.drop 12).take 5))
      < registers (bitsToNat ((instr.drop 7).take 5))
  · rw [if_pos hc, if_pos (by exact_mod_cast hc)]
    rfl
  · rw [if_neg hc, if_neg (by exact_mod_cast hc)]
    rfl

/-- Witness for C6's amended theorem: `slt x3, x1, x2` with x1 = 0xFFFFFFFF
and x2 = 1. -/
theorem slt_unsigned_compare_witness :
    ((execute_instruction (bits "00000000001000001010000110110011") 0 regsC
        (List.replicate 32 0)).2.1)
        (bitsToNat (((bits "00000000001000001010000110110011").drop 20).take 5))
      = if regsC (bitsToNat (((bits "00000000001000001010000110110011").drop 12).take 5))
            < regsC (bitsToNat (((bits "00000000001000001010000110110011").drop 7).take 5))
        then 1 else 0 :=
  slt_unsigned_compare (bits "00000000001000001010000110110011") 0 regsC
    (List.replicate 32 0) (by decide) (by decide) (by decide)

/-- C6 counterexample: with x1 storing -1 (0xFFFFFFFF) and x2 storing 1,
the signed interpretation says x1 < x2, yet `slt x3, x1, x2` writes 0, not
the 1 the claim requires. -/
theorem slt_signed_compare_refuted :
    signed32 (regsC 1) < signed32 (regsC 2)
  ∧ ((execute_instruction (bits "00000000001000001010000110110011") 0 regsC
        (List.replicate 32 0)).2.1) 3 = 0
  ∧ (0 : Nat) ≠ 1 := by
  refine ⟨by decide, rfl, by decide⟩

/-- C1: Label offset law — refuted by evaluation.  Assembling `jal ra, L`
at byte address P = 0 with the label L defined at byte address 8 succeeds,
but executing the produced word yields next PC 2, not L = 8: the assembler
stores the word offset `(L - P) // 4 = 2` in the immediate field while the
decoder re-appends only the single implicit zero bit, so the taken jump
lands at `P + (((L - P) / 4) with bit 0 cleared)`. -/
theorem label_offset_law_violated :
    do_instruction_j "jal" "ra" (ImmOperand.label 8) 0
        = some (bits "00000000001000000000000011101111")
  ∧ (execute_instruction (bits "00000000001000000000000011101111") 0
        init_registers (init_memory 32)).1 = 2
  ∧ (2 : Int) ≠ 8 :=
  ⟨by decide, rfl, by decide⟩

theorem regs_length {n : String} {s : List Bool} (h : regs n = some s) :
    s.length = 5 := by
  unfold regs at h
  split at h <;> cases h <;> decide

theorem range_check_length {imm : Int} {size : Nat} {imm_bin : List Bool}
    (hsize : 1 ≤ size)
    (h : (if ¬ (-(2 ^ (size - 1) : Int) ≤ imm ∧ imm ≤ 2 ^ (size - 1) - 1)
          then none else some (make_binary imm size)) = some imm_bin) :
    imm_bin.length = size := by
  split_ifs at h with hc
  cases h
  exact make_binary_length hsize hc.1 hc.2

theorem parse_immediate_length {imm_str : ImmOperand} {pc : Int}
    {inst : String} {size : Nat} {imm_bin : List Bool} (hsize : 1 ≤ size)
    (h : parse_immediate imm_str pc inst size = some imm_bin) :
    imm_bin.length = size :=
  range_check_length hsize h

theorem b_word_slices (b0 b1 : Bool) (a1 rs2 rs1 f3 a2 op w : List Bool)
    (hw : w = [b0] ++ a1 ++ rs2 ++ rs1 ++ f3 ++ a2 ++ [b1] ++ op)
    (h1 : a1.length = 6) (h2 : rs2.length = 5) (h3 : rs1.length = 5)
    (h4 : f3.length = 3) (h5 : a2.length = 4) (h6 : op.length = 7) :
    w.length = 32 ∧ w.drop 25 = op ∧ (w.drop 17).take 3 = f3
      ∧ (w.drop 12).take 5 = rs1 ∧ (w.drop 7).take 5 = rs2 := by
  have hw25 : w = ([b0] ++ a1 ++ rs2 ++ rs1 ++ f3 ++ a2 ++ [b1]) ++ op := by
    simp [hw, List.append_assoc]
  have hw17 : w = ([b0] ++ a1 ++ rs2 ++ rs1)
      ++ (f3 ++ (a2 ++ [b1] ++ op)) := by
    simp [hw, List.append_assoc]
  have hw12 : w = ([b0] ++ a1 ++ rs2)
      ++ (rs1 ++ (f3 ++ a2 ++ [b1] ++ op)) := by
    simp [hw, List.append_assoc]
  have hw7 : w = ([b0] ++ a1)
      ++ (rs2 ++ (rs1 ++ f3 ++ a2 ++ [b1] ++ op)) := by
    simp [hw, List.append_assoc]
  refine ⟨?_, ?_, ?_, ?_, ?_⟩
  · rw [hw]
    simp [h1, h2, h3, h4, h5, h6]
  · rw [hw25, List.drop_left' (by simp [h1, h2, h3, h4, h5])]
  · rw [hw17, List.drop_left' (by simp [h1, h2, h3]), List.take_left' h4]
  · rw [hw12, List.drop_left' (by simp [h1, h2]), List.take_left' h3]
  · rw [hw7, List.drop_left' (by simp [h1]), List.take_left' h2]

/-- C8 (amended): Every syntactically valid `blt` (valid registers,
in-range 13-bit immediate operand) is encoded by the assembler into a
32-bit word with the branch opcode 1100011 and funct3 = 100, and — unless
both source register fields are 0 and the decoded immediate is 0, in which
case the halt special case fires first — executing that word makes the
simulator signal the fatal unknown-branch fault `-2`, mutating nothing,
instead of performing a comparison. -/
theorem blt_unknown_branch_fault (rs1_str rs2_str : String)
    (rs1 rs2 : List Bool) (imm_str : ImmOperand) (pcA : Int) (w : List Bool)
    (h1 : regs rs1_str = some rs1) (h2 : regs rs2_str = some rs2)
    (hw : do_instruction_b "blt" rs1_str rs2_str imm_str pcA = some w)
    (hnothalt : ¬ (bitsToNat ((w.drop 12).take 5) = 0
        ∧ bitsToNat ((w.drop 7).take 5) = 0 ∧ decode_b_imm w = 0))
    (pc : Int) (registers : Nat → Nat) (memory : List Nat) :
    w.length = 32 ∧ w.drop 25 = bits "1100011"
      ∧ (w.drop 17).take 3 = bits "100"
      ∧ execute_instruction w pc registers memory
          = (-2, registers, memory) := by
  unfold do_instruction_b at hw
  rw [show insts "blt" = some ⟨bits "1100011", bits "100", []⟩ from rfl,
      h1, h2] at hw
  dsimp only at hw
  cases hp : parse_immediate imm_str pcA "blt" 13 with
  | none =>
    rw [hp] at hw
    cases hw
  | some imm_bin =>
    rw [hp] at hw
    dsimp only at hw
    cases hw
    have limm : imm_bin.length = 13 := parse_immediate_length (by omega) hp
    obtain ⟨s32, s25, s17, s12, s7⟩ := b_word_slices (imm_bin.getD 0 false)
      (imm_bin.getD 1 false) ((imm_bin.drop 2).take 6) rs2 rs1 (bits "100")
      ((imm_bin.drop 8).take 4) (bits "1100011") _ rfl
      (by simp [limm]) (regs_length h2) (regs_length h1) (by decide)
      (by simp [limm]) (by decide)
    refine ⟨s32, s25, s17, ?_⟩
    have hErr : execute_b_type ([imm_bin.getD 0 false] ++ (imm_bin.drop 2).take 6
          ++ rs2 ++ rs1 ++ bits "100" ++ (imm_bin.drop 8).take 4
          ++ [imm_bin.getD 1 false] ++ bits "1100011") pc registers memory
        = Except.error "Unknown B-type funct3" := by
      simp only [execute_b_type]
      rw [if_neg (fun hcontra => hnothalt ⟨hcontra.1, hcontra.2.1, hcontra.2.2.1⟩)]
      rw [s17]
      rw [if_neg (by decide), if_neg (by decide)]
    rw [execute_instruction_b _ _ _ _ s25, hErr]

/-- Witness for C8's amended theorem: `blt t0, zero, 4` assembles and its
word faults with `-2` leaving the state untouched. -/
theorem blt_unknown_branch_fault_witness :
    (bits "00000000000000101100001001100011").length = 32
  ∧ (bits "00000000000000101100001001100011").drop 25 = bits "1100011"
  ∧ ((bits "00000000000000101100001001100011").drop 17).take 3 = bits "100"
  ∧ execute_instruction (bits "00000000000000101100001001100011") 0
      init_registers (init_memory 32) = (-2, init_registers, init_memory 32) :=
  blt_unknown_branch_fault "t0" "zero" (bits "00101") (bits "00000")
    (ImmOperand.lit 4) 0 (bits "00000000000000101100001001100011")
    (by decide) (by decide) (by decide) (by decide) 0 init_registers
    (init_memory 32)

/-- C8 counterexample: the syntactically valid `blt zero, zero, 0` encodes
successfully, but executing the word returns the halt sentinel `-1` (the
halt special case fires before the funct3 dispatch), not the
unknown-branch fault `-2` the claim requires for every valid `blt`. -/
theorem blt_fault_refuted :
    do_instruction_b "blt" "zero" "zero" (ImmOperand.lit 0) 0
        = some (bits "00000000000000000100000001100011")
  ∧ execute_instruction (bits "00000000000000000100000001100011") 0
        init_registers (init_memory 32) = (-1, init_registers, init_memory 32)
  ∧ (-1 : Int) ≠ -2 :=
  ⟨by decide, rfl, by decide⟩

end CO
